import Mathlib

/-!
Shallow embedding of the user betting-history reconciliation engine of
`backend/user_analysis.py` (class `PolymarketAnalyzer`): record
normalization, the per-market cash-flow ledger, outcome classification,
duplicate/hedge detection, the per-user summary, the leaderboard loading
filter, and the paginated fetch loops.

Modelling conventions:
* Python floats are modelled as exact rationals (`ℚ`); IEEE-754 rounding is
  not modelled, so the literal `0.01` is the rational `1/100`.
* A JSON field value is a `JVal`: a number (or numeric string, carrying the
  rational it parses to), `null`, or a non-numeric string on which Python's
  `float(...)` raises.  `float()` raising propagates as `Option.none`
  through the analysis, exactly as an uncaught Python exception would.
* Python `dict.get` of a possibly-missing string field is an
  `Option String`; Python truthiness of such a value (`if not slug`,
  `if outcome`) is `truthyStr`.
* The Python `set` accumulators (`market_slugs`, `market_outcomes[s]`) are
  modelled as duplicate-free lists in insertion order (`addOnce`).  Real
  `set` iteration order is unspecified; every numeric quantity proved below
  is independent of that order, and the recorded membership content is
  order-faithful.
-/

namespace MetaBet

/-- A pandas cell: either a string or a non-string value (NaN etc.). -/
inductive Cell : Type
  | str (s : String)
  | nan
deriving DecidableEq, Repr

/-- A JSON field value as seen by `float(...)`: `jnum q` is a number or
numeric string parsing to `q`; `jnull` is JSON null (`float(None)` raises);
`jstrBad s` is a non-numeric string (`float(s)` raises). -/
inductive JVal : Type
  | jnum (q : ℚ)
  | jnull
  | jstrBad (s : String)
deriving DecidableEq, Repr

/-- Semantics of Python `float(v)` on a field value: `none` means the call
raises. -/
def pyFloat : JVal → Option ℚ
  | .jnum q => some q
  | .jnull => none
  | .jstrBad _ => none

/-- Semantics of `float(item.get(key, 0))`: a missing key defaults to `0`;
a present value goes through `pyFloat`. -/
def floatField : Option JVal → Option ℚ
  | none => some 0
  | some v => pyFloat v

/-- Python truthiness of an optional string: `None` and `""` are falsy. -/
def truthyStr : Option String → Bool
  | none => false
  | some s => !(s == "")

/-- One record of the `/activity` endpoint, restricted to the fields
`analyze_user` reads. -/
structure ActivityItem where
  slug : Option String
  type_ : Option String
  side : Option String
  usdcSize : Option JVal
  outcome : Option String
deriving DecidableEq, Repr

/-- One record of the `/positions` endpoint, restricted to the fields
`analyze_user` reads. -/
structure PositionItem where
  slug : Option String
  eventSlug : Option String
  currentValue : Option JVal
deriving DecidableEq, Repr

/-- Pointwise update of a string-keyed mapping (a `defaultdict` write). -/
def update {α : Type} (f : String → α) (k : String) (v : α) : String → α :=
  fun x => if x = k then v else f x

/-- Insert into a set modelled as a duplicate-free list (`set.add`). -/
def addOnce (l : List String) (s : String) : List String :=
  if s ∈ l then l else l ++ [s]

/-- The in-memory accumulators of `analyze_user`: `market_cashflow`
(`defaultdict(float)`), `market_outcomes` (`defaultdict(set)`),
`market_buys` (`defaultdict(int)`), and `market_slugs` (`set`). -/
structure LedgerState where
  market_cashflow : String → ℚ
  market_outcomes : String → List String
  market_buys : String → ℕ
  market_slugs : List String

/-- The empty accumulators at the start of `analyze_user`. -/
def initState : LedgerState where
  market_cashflow := fun _ => 0
  market_outcomes := fun _ => []
  market_buys := fun _ => 0
  market_slugs := []

/-- One iteration of the `for item in activities` loop of `analyze_user`
(lines 114-139): drop the record if its slug is falsy, otherwise register
the slug, convert `usdcSize` with `float` (`none` = the exception
propagates), and dispatch on `type`/`side`. -/
def applyActivity (st : LedgerState) (it : ActivityItem) : Option LedgerState :=
  match it.slug with
  | none => some st
  | some slug =>
    if slug = "" then some st
    else
      let st1 : LedgerState := { st with market_slugs := addOnce st.market_slugs slug }
      match floatField it.usdcSize with
      | none => none
      | some usdc =>
        if it.type_ = some "TRADE" ∧ it.side = some "BUY" then
          let st2 : LedgerState :=
            { st1 with
              market_cashflow := update st1.market_cashflow slug (st1.market_cashflow slug - usdc)
              market_buys := update st1.market_buys slug (st1.market_buys slug + 1) }
          some (if truthyStr it.outcome then
            { st2 with
              market_outcomes :=
                update st2.market_outcomes slug
                  (addOnce (st2.market_outcomes slug) (it.outcome.getD "")) }
          else st2)
        else if it.type_ = some "TRADE" ∧ it.side = some "SELL" then
          some { st1 with
            market_cashflow := update st1.market_cashflow slug (st1.market_cashflow slug + usdc) }
        else if it.type_ = some "REDEEM" then
          some { st1 with
            market_cashflow := update st1.market_cashflow slug (st1.market_cashflow slug + usdc) }
        else if it.type_ = some "MERGE" then
          some { st1 with
            market_cashflow := update st1.market_cashflow slug (st1.market_cashflow slug + usdc) }
        else some st1

/-- One iteration of the `for pos in positions` loop (lines 142-148):
`slug = pos.get('slug') or pos.get('eventSlug')`; drop if falsy; add
`float(currentValue)` to the cash flow.  Note the slug is NOT added to
`market_slugs`. -/
def applyPosition (st : LedgerState) (p : PositionItem) : Option LedgerState :=
  let slug? : Option String := if truthyStr p.slug then p.slug else p.eventSlug
  match slug? with
  | none => some st
  | some slug =>
    if slug = "" then some st
    else
      match floatField p.currentValue with
      | none => none
      | some cv =>
        some { st with
          market_cashflow := update st.market_cashflow slug (st.market_cashflow slug + cv) }

/-- The records fetched for one user (activity pages then position pages). -/
structure UserRecords where
  activities : List ActivityItem
  positions : List PositionItem
deriving DecidableEq, Repr

/-- Both record-processing loops of `analyze_user`; `none` means an
uncaught exception aborted the user's analysis. -/
def analyzeLedger (u : UserRecords) : Option LedgerState := do
  let st ← List.foldlM applyActivity initState u.activities
  List.foldlM applyPosition st u.positions

/-- The metric accumulators of `analyze_user` (lines 152-158). -/
structure Metrics where
  wins : ℕ
  losses : ℕ
  total_won : ℚ
  total_lost : ℚ
  duplicated_bets_count : ℕ
  duplicated_diff_outcome : ℕ
  duplicated_details : List String
deriving DecidableEq, Repr

/-- All metric accumulators start at zero / empty. -/
def initMetrics : Metrics :=
  ⟨0, 0, 0, 0, 0, 0, []⟩

/-- The hedge note string appended for a hedged market:
`f"\x7bslug\x7d: Different outcomes (\x7b', '.join(outcomes)\x7d)"`, with the
set join order taken as this model's insertion order. -/
def formatDetail (slug : String) (outcomes : List String) : String :=
  slug ++ ": Different outcomes (" ++ String.intercalate ", " outcomes ++ ")"

/-- One iteration of the `for slug in market_slugs` metrics loop
(lines 160-183): outcome classification with dead zone `0.01`, then
duplicate/hedge detection. -/
def stepMetrics (st : LedgerState) (m : Metrics) (slug : String) : Metrics :=
  let pnl := st.market_cashflow slug
  let m1 : Metrics :=
    if pnl > 1/100 then
      { m with wins := m.wins + 1, total_won := m.total_won + pnl }
    else if pnl < -(1/100) then
      { m with losses := m.losses + 1, total_lost := m.total_lost + |pnl| }
    else m
  if st.market_buys slug > 1 then
    let outcomes := st.market_outcomes slug
    if outcomes.length > 1 then
      { m1 with
        duplicated_bets_count := m1.duplicated_bets_count + 1
        duplicated_diff_outcome := m1.duplicated_diff_outcome + 1
        duplicated_details := m1.duplicated_details ++ [formatDetail slug outcomes] }
    else
      { m1 with duplicated_bets_count := m1.duplicated_bets_count + 1 }
  else m1

/-- The whole metrics loop, iterating over `market_slugs` (the claims
proved about the numeric fields are independent of iteration order). -/
def calcMetrics (st : LedgerState) : Metrics :=
  st.market_slugs.foldl (stepMetrics st) initMetrics

/-- Python `round(x, 2)`, idealized over `ℚ` (Python rounds float ties to
even; the difference surfaces only at exact half-cent ties, touched by no
claim here). -/
def roundTo2 (q : ℚ) : ℚ :=
  ((round (q * 100) : ℤ) : ℚ) / 100

/-- The per-user result row returned by `analyze_user` (lines 185-196). -/
structure Summary where
  name : Cell
  wallet : String
  profile_url : Cell
  wins : ℕ
  losses : ℕ
  total_won : ℚ
  total_lost : ℚ
  duplicated_bets : ℕ
  diff_outcome_count : ℕ
  diff_outcome_details : String
deriving DecidableEq, Repr

/-- `analyze_user`, with the two fetch calls replaced by the fetched
records: process the records, compute metrics, build the summary row.
`none` = an uncaught exception escaped (caught later in `run`). -/
def analyze_user (wallet : String) (name profile_url : Cell) (u : UserRecords) :
    Option Summary :=
  (analyzeLedger u).map fun st =>
    let m := calcMetrics st
    { name := name
      wallet := wallet
      profile_url := profile_url
      wins := m.wins
      losses := m.losses
      total_won := roundTo2 m.total_won
      total_lost := roundTo2 m.total_lost
      duplicated_bets := m.duplicated_bets_count
      diff_outcome_count := m.duplicated_diff_outcome
      diff_outcome_details := String.intercalate "; " m.duplicated_details }

/-- `load_users`' wallet extraction (line 22):
`x.split('/')[-1].strip() if isinstance(x, str) else None`. -/
def extract_wallet : Cell → Option String
  | .str s => some ((s.splitOn "/").getLastD "").trim
  | .nan => none

/-- One leaderboard CSV row, bundled with the records the API would return
for its wallet (the network oracle). -/
structure LeaderRow where
  name : Cell
  profileURL : Cell
  records : UserRecords
deriving DecidableEq, Repr

/-- The rows for which `run` submits a worker task: the comprehension
filter `if row['wallet']` (line 216) keeps rows whose extracted wallet is
truthy. -/
def submitted (rows : List LeaderRow) : List LeaderRow :=
  rows.filter fun r => truthyStr (extract_wallet r.profileURL)

/-- `run` (lines 198-229): analyze each submitted row; a worker whose
analysis raised is caught at `future.result()` and contributes no result
row.  Completion order is nondeterministic in the source; this model keeps
submission order, which suffices for the membership properties proved
below. -/
def run_model (rows : List LeaderRow) : List Summary :=
  (submitted rows).filterMap fun r =>
    analyze_user ((extract_wallet r.profileURL).getD "") r.name r.profileURL r.records

/-- The paginated fetch loop of `fetch_user_activity` /
`fetch_user_positions`, abstracted over the page served at each offset
(`api off` = the JSON list a request with `offset=off` returns) and given
fuel bounding the number of iterations modelled (the source loop has no
such bound).  Returns the accumulated records and the number of page
requests issued.  `limit` is hard-coded to 100 as in the source. -/
def fetch_pages {α : Type} (api : ℕ → List α) : ℕ → ℕ → List α × ℕ
  | 0, _ => ([], 0)
  | fuel + 1, offset =>
    let data := api offset
    if data.length = 0 then ([], 1)
    else if data.length < 100 then (data, 1)
    else
      let p := fetch_pages api fuel (offset + 100)
      (data ++ p.1, p.2 + 1)

/-- One HTTP response in the fetch loop: a 429 throttle, a successful JSON
page, or any other error (non-2xx status, timeout, decode failure — the
broad `except` clause). -/
inductive Resp (α : Type) : Type
  | rate429
  | ok (data : List α)
  | httpErr
deriving DecidableEq, Repr

/-- Whether a response is an HTTP 429. -/
def Resp.is429 {α : Type} : Resp α → Bool
  | .rate429 => true
  | _ => false

/-- The fetch loop driven by an explicit stream of responses, one per
request issued, tracking the offset of each request: on a 429 sleep and
`continue` (same offset); on any other error `break`; on a page apply the
empty / short-page stopping rules; otherwise advance the offset by the
limit (100).  Returns the accumulated records and the requested offsets. -/
def fetch_resp {α : Type} : List (Resp α) → ℕ → List α × List ℕ
  | [], _ => ([], [])
  | .rate429 :: rs, off =>
    let p := fetch_resp rs off
    (p.1, off :: p.2)
  | .httpErr :: _, off => ([], [off])
  | .ok data :: rs, off =>
    if data.length = 0 then ([], [off])
    else if data.length < 100 then (data, [off])
    else
      let p := fetch_resp rs (off + 100)
      (data ++ p.1, off :: p.2)

/-! ### Derived quantities and helper lemmas -/

/-- The signed cash-flow contribution of one activity record to market
`k`: `-usdcSize` for a BUY, `+usdcSize` for SELL/REDEEM/MERGE, `0` for a
dropped or unrecognized record or another market. -/
def activityDelta (k : String) (it : ActivityItem) : ℚ :=
  match it.slug with
  | none => 0
  | some slug =>
    if slug = "" then 0
    else
      match floatField it.usdcSize with
      | none => 0
      | some usdc =>
        if slug = k then
          if it.type_ = some "TRADE" ∧ it.side = some "BUY" then -usdc
          else if it.type_ = some "TRADE" ∧ it.side = some "SELL" then usdc
          else if it.type_ = some "REDEEM" then usdc
          else if it.type_ = some "MERGE" then usdc
          else 0
        else 0

/-- The cash-flow contribution of one position record to market `k`:
`+currentValue` when its (slug-or-eventSlug) key is `k`, else `0`. -/
def positionDelta (k : String) (p : PositionItem) : ℚ :=
  match (if truthyStr p.slug then p.slug else p.eventSlug) with
  | none => 0
  | some slug =>
    if slug = "" then 0
    else
      match floatField p.currentValue with
      | none => 0
      | some cv => if slug = k then cv else 0

/-- Whether processing one activity record succeeds (does not raise):
records with a falsy slug are skipped before `float` is called. -/
def activityOK (it : ActivityItem) : Bool :=
  match it.slug with
  | none => true
  | some slug => if slug = "" then true else (floatField it.usdcSize).isSome

/-- Whether processing one position record succeeds. -/
def positionOK (p : PositionItem) : Bool :=
  match (if truthyStr p.slug then p.slug else p.eventSlug) with
  | none => true
  | some slug => if slug = "" then true else (floatField p.currentValue).isSome

/-- Whether one activity record is a BUY trade on market `k`. -/
def isBuyOn (k : String) (it : ActivityItem) : Bool :=
  it.slug = some k ∧ k ≠ "" ∧ it.type_ = some "TRADE" ∧ it.side = some "BUY"

/-- The `market_slugs` evolution of one activity record. -/
def slugStep (l : List String) (it : ActivityItem) : List String :=
  match it.slug with
  | none => l
  | some slug => if slug = "" then l else addOnce l slug

/-- The slugs registered by a list of activity records. -/
def activitySlugs (items : List ActivityItem) : List String :=
  items.foldl slugStep []

theorem applyActivity_cashflow {st st' : LedgerState} {it : ActivityItem} (k : String)
    (h : applyActivity st it = some st') :
    st'.market_cashflow k = st.market_cashflow k + activityDelta k it := by
  revert h
  unfold applyActivity activityDelta
  cases hslug : it.slug with
  | none => intro h; cases h; simp
  | some slug =>
    dsimp only
    by_cases he : slug = ""
    · rw [if_pos he, if_pos he]; intro h; cases h; simp
    · rw [if_neg he, if_neg he]
      cases hf : floatField it.usdcSize with
      | none => intro h; cases h
      | some usdc =>
        dsimp only
        by_cases hk : slug = k
        · rw [if_pos hk]
          subst hk
          intro h
          split_ifs at h ⊢ <;> cases h <;> simp [update] <;> ring
        · rw [if_neg hk]
          have hk' : k ≠ slug := fun hh => hk hh.symm
          intro h
          split_ifs at h <;> cases h <;> simp [update, hk']

theorem applyPosition_cashflow {st st' : LedgerState} {p : PositionItem} (k : String)
    (h : applyPosition st p = some st') :
    st'.market_cashflow k = st.market_cashflow k + positionDelta k p := by
  revert h
  unfold applyPosition positionDelta
  cases hslug : (if truthyStr p.slug then p.slug else p.eventSlug) with
  | none => intro h; cases h; simp
  | some slug =>
    dsimp only
    by_cases he : slug = ""
    · rw [if_pos he, if_pos he]; intro h; cases h; simp
    · rw [if_neg he, if_neg he]
      cases hf : floatField p.currentValue with
      | none => intro h; cases h
      | some cv =>
        dsimp only
        by_cases hk : slug = k
        · rw [if_pos hk]; subst hk; intro h; cases h; simp [update]
        · rw [if_neg hk]
          have hk' : k ≠ slug := fun hh => hk hh.symm
          intro h; cases h; simp [update, hk']

theorem foldlM_cashflow {β : Type} {g : LedgerState → β → Option LedgerState} {δ : β → ℚ}
    {k : String}
    (hg : ∀ st b st', g st b = some st' → st'.market_cashflow k = st.market_cashflow k + δ b) :
    ∀ (l : List β) (st st' : LedgerState), List.foldlM g st l = some st' →
      st'.market_cashflow k = st.market_cashflow k + (l.map δ).sum := by
  intro l
  induction l with
  | nil => intro st st' h; rw [List.foldlM_nil] at h; cases h; simp
  | cons b t ih =>
    intro st st' h
    rw [List.foldlM_cons] at h
    cases hb : g st b with
    | none => rw [hb] at h; simp at h
    | some st1 =>
      rw [hb] at h
      simp only [Option.bind_eq_bind, Option.some_bind] at h
      rw [ih st1 st' h, hg st b st1 hb]
      simp only [List.map_cons, List.sum_cons]
      ring

theorem foldlM_isSome {β : Type} {g : LedgerState → β → Option LedgerState} {ok : β → Bool}
    (hg : ∀ st b, (g st b).isSome = ok b) :
    ∀ (l : List β) (st : LedgerState), (List.foldlM g st l).isSome = l.all ok := by
  intro l
  induction l with
  | nil => intro st; simp
  | cons b t ih =>
    intro st
    rw [List.foldlM_cons]
    cases hb : g st b with
    | none =>
      have : ok b = false := by rw [← hg st b, hb]; rfl
      simp [this]
    | some st1 =>
      have : ok b = true := by rw [← hg st b, hb]; rfl
      simp only [Option.bind_eq_bind, Option.some_bind, List.all_cons, this, Bool.true_and]
      exact ih st1

theorem applyActivity_isSome (st : LedgerState) (it : ActivityItem) :
    (applyActivity st it).isSome = activityOK it := by
  unfold applyActivity activityOK
  cases it.slug with
  | none => rfl
  | some slug =>
    dsimp only
    by_cases he : slug = ""
    · rw [if_pos he, if_pos he]; rfl
    · rw [if_neg he, if_neg he]
      cases floatField it.usdcSize with
      | none => rfl
      | some usdc => dsimp only; split_ifs <;> rfl

theorem applyPosition_isSome (st : LedgerState) (p : PositionItem) :
    (applyPosition st p).isSome = positionOK p := by
  unfold applyPosition positionOK
  cases (if truthyStr p.slug then p.slug else p.eventSlug) with
  | none => rfl
  | some slug =>
    dsimp only
    by_cases he : slug = ""
    · rw [if_pos he, if_pos he]; rfl
    · rw [if_neg he, if_neg he]
      cases floatField p.currentValue with
      | none => rfl
      | some cv => rfl

theorem applyActivity_slugs {st st' : LedgerState} {it : ActivityItem}
    (h : applyActivity st it = some st') :
    st'.market_slugs = slugStep st.market_slugs it := by
  revert h
  unfold applyActivity slugStep
  cases it.slug with
  | none => intro h; cases h; rfl
  | some slug =>
    dsimp only
    by_cases he : slug = ""
    · rw [if_pos he, if_pos he]; intro h; cases h; rfl
    · rw [if_neg he, if_neg he]
      cases floatField it.usdcSize with
      | none => intro h; cases h
      | some usdc =>
        dsimp only
        intro h
        split_ifs at h <;> cases h <;> rfl

theorem applyPosition_preserves {st st' : LedgerState} {p : PositionItem}
    (h : applyPosition st p = some st') :
    st'.market_slugs = st.market_slugs ∧ st'.market_buys = st.market_buys ∧
      st'.market_outcomes = st.market_outcomes := by
  revert h
  unfold applyPosition
  cases (if truthyStr p.slug then p.slug else p.eventSlug) with
  | none => intro h; cases h; exact ⟨rfl, rfl, rfl⟩
  | some slug =>
    dsimp only
    by_cases he : slug = ""
    · rw [if_pos he]; intro h; cases h; exact ⟨rfl, rfl, rfl⟩
    · rw [if_neg he]
      cases floatField p.currentValue with
      | none => intro h; cases h
      | some cv => intro h; cases h; exact ⟨rfl, rfl, rfl⟩

theorem applyActivity_not_buy {st st' : LedgerState} {it : ActivityItem}
    (h : applyActivity st it = some st')
    (hnb : ¬(it.type_ = some "TRADE" ∧ it.side = some "BUY")) :
    st'.market_buys = st.market_buys ∧ st'.market_outcomes = st.market_outcomes := by
  revert h
  unfold applyActivity
  cases it.slug with
  | none => intro h; cases h; exact ⟨rfl, rfl⟩
  | some slug =>
    dsimp only
    by_cases he : slug = ""
    · rw [if_pos he]; intro h; cases h; exact ⟨rfl, rfl⟩
    · rw [if_neg he]
      cases floatField it.usdcSize with
      | none => intro h; cases h
      | some usdc =>
        dsimp only
        rw [if_neg hnb]
        intro h
        split_ifs at h <;> cases h <;> exact ⟨rfl, rfl⟩

/-- A record with a falsy slug is dropped: the state is untouched. -/
theorem applyActivity_dropped {st : LedgerState} {it : ActivityItem}
    (hs : it.slug = none ∨ it.slug = some "") :
    applyActivity st it = some st := by
  unfold applyActivity
  rcases hs with hs | hs <;> rw [hs]
  dsimp only
  rw [if_pos rfl]

/-- The exact successor state for a BUY trade record. -/
theorem applyActivity_buy_eq {st : LedgerState} {it : ActivityItem} {s : String} {q : ℚ}
    (hs : it.slug = some s) (hne : s ≠ "")
    (ht : it.type_ = some "TRADE") (hsd : it.side = some "BUY")
    (hq : floatField it.usdcSize = some q) :
    applyActivity st it = some
      { market_cashflow := update st.market_cashflow s (st.market_cashflow s - q)
        market_outcomes :=
          if truthyStr it.outcome then
            update st.market_outcomes s (addOnce (st.market_outcomes s) (it.outcome.getD ""))
          else st.market_outcomes
        market_buys := update st.market_buys s (st.market_buys s + 1)
        market_slugs := addOnce st.market_slugs s } := by
  unfold applyActivity
  rw [hs]
  dsimp only
  rw [if_neg hne, hq]
  dsimp only
  rw [if_pos ⟨ht, hsd⟩]
  by_cases ho : truthyStr it.outcome <;> simp [ho]

/-- The exact successor state for a SELL trade record. -/
theorem applyActivity_sell_eq {st : LedgerState} {it : ActivityItem} {s : String} {q : ℚ}
    (hs : it.slug = some s) (hne : s ≠ "")
    (ht : it.type_ = some "TRADE") (hsd : it.side = some "SELL")
    (hq : floatField it.usdcSize = some q) :
    applyActivity st it = some
      { market_cashflow := update st.market_cashflow s (st.market_cashflow s + q)
        market_outcomes := st.market_outcomes
        market_buys := st.market_buys
        market_slugs := addOnce st.market_slugs s } := by
  unfold applyActivity
  rw [hs]
  dsimp only
  rw [if_neg hne, hq]
  dsimp only
  rw [if_neg (by rintro ⟨-, hb⟩; rw [hsd] at hb; exact absurd (Option.some.inj hb) (by decide)),
    if_pos ⟨ht, hsd⟩]

/-- The exact successor state for a REDEEM or MERGE record. -/
theorem applyActivity_settle_eq {st : LedgerState} {it : ActivityItem} {s : String} {q : ℚ}
    (hs : it.slug = some s) (hne : s ≠ "")
    (ht : it.type_ = some "REDEEM" ∨ it.type_ = some "MERGE")
    (hq : floatField it.usdcSize = some q) :
    applyActivity st it = some
      { market_cashflow := update st.market_cashflow s (st.market_cashflow s + q)
        market_outcomes := st.market_outcomes
        market_buys := st.market_buys
        market_slugs := addOnce st.market_slugs s } := by
  unfold applyActivity
  rw [hs]
  dsimp only
  rw [if_neg hne, hq]
  dsimp only
  have hnt : ¬ it.type_ = some "TRADE" := by
    rcases ht with ht | ht <;> rw [ht] <;> intro hb <;>
      exact absurd (Option.some.inj hb) (by decide)
  rw [if_neg (by rintro ⟨hb, -⟩; exact hnt hb), if_neg (by rintro ⟨hb, -⟩; exact hnt hb)]
  rcases ht with ht | ht
  · rw [if_pos ht]
  · rw [if_neg (by rw [ht]; intro hb; exact absurd (Option.some.inj hb) (by decide)), if_pos ht]

/-- The exact successor state for a slug-bearing activity record of no
recognized economic kind: only `market_slugs` is touched. -/
theorem applyActivity_other_eq {st : LedgerState} {it : ActivityItem} {s : String} {q : ℚ}
    (hs : it.slug = some s) (hne : s ≠ "")
    (h1 : ¬(it.type_ = some "TRADE" ∧ it.side = some "BUY"))
    (h2 : ¬(it.type_ = some "TRADE" ∧ it.side = some "SELL"))
    (h3 : ¬ it.type_ = some "REDEEM") (h4 : ¬ it.type_ = some "MERGE")
    (hq : floatField it.usdcSize = some q) :
    applyActivity st it = some
      { market_cashflow := st.market_cashflow
        market_outcomes := st.market_outcomes
        market_buys := st.market_buys
        market_slugs := addOnce st.market_slugs s } := by
  unfold applyActivity
  rw [hs]
  dsimp only
  rw [if_neg hne, hq]
  dsimp only
  rw [if_neg h1, if_neg h2, if_neg h3, if_neg h4]

/-- A slug-bearing record whose `usdcSize` does not parse raises. -/
theorem applyActivity_raises {st : LedgerState} {it : ActivityItem} {s : String}
    (hs : it.slug = some s) (hne : s ≠ "")
    (hq : floatField it.usdcSize = none) :
    applyActivity st it = none := by
  unfold applyActivity
  rw [hs]
  dsimp only
  rw [if_neg hne, hq]

/-- The exact successor state for a position record with a truthy key. -/
theorem applyPosition_eq {st : LedgerState} {p : PositionItem} {s : String} {q : ℚ}
    (hs : (if truthyStr p.slug then p.slug else p.eventSlug) = some s) (hne : s ≠ "")
    (hq : floatField p.currentValue = some q) :
    applyPosition st p = some
      { market_cashflow := update st.market_cashflow s (st.market_cashflow s + q)
        market_outcomes := st.market_outcomes
        market_buys := st.market_buys
        market_slugs := st.market_slugs } := by
  unfold applyPosition
  rw [hs]
  dsimp only
  rw [if_neg hne, hq]

/-- A position record with a falsy key is dropped. -/
theorem applyPosition_dropped {st : LedgerState} {p : PositionItem}
    (hs : (if truthyStr p.slug then p.slug else p.eventSlug) = none ∨
      (if truthyStr p.slug then p.slug else p.eventSlug) = some "") :
    applyPosition st p = some st := by
  unfold applyPosition
  rcases hs with hs | hs <;> rw [hs]
  dsimp only
  rw [if_pos rfl]


/-- Field-by-field characterization of one metrics-loop iteration.  The
`elif pnl < -0.01` guard is equivalent to a plain `if` because the two
conditions are mutually exclusive. -/
theorem stepMetrics_eq (st : LedgerState) (m : Metrics) (slug : String) :
    stepMetrics st m slug =
      { wins := if st.market_cashflow slug > 1/100 then m.wins + 1 else m.wins
        losses := if st.market_cashflow slug < -(1/100) then m.losses + 1 else m.losses
        total_won :=
          if st.market_cashflow slug > 1/100 then m.total_won + st.market_cashflow slug
          else m.total_won
        total_lost :=
          if st.market_cashflow slug < -(1/100) then m.total_lost + |st.market_cashflow slug|
          else m.total_lost
        duplicated_bets_count :=
          if st.market_buys slug > 1 then m.duplicated_bets_count + 1
          else m.duplicated_bets_count
        duplicated_diff_outcome :=
          if st.market_buys slug > 1 ∧ (st.market_outcomes slug).length > 1 then
            m.duplicated_diff_outcome + 1
          else m.duplicated_diff_outcome
        duplicated_details :=
          if st.market_buys slug > 1 ∧ (st.market_outcomes slug).length > 1 then
            m.duplicated_details ++ [formatDetail slug (st.market_outcomes slug)]
          else m.duplicated_details } := by
  unfold stepMetrics
  dsimp only
  split_ifs with h1 h2 h3 h4 h5 h6 h7 h8 h9 h10 h11 h12 <;>
    first
    | rfl
    | (exfalso; first | linarith | tauto)

/-- The invariant of the metric accumulators used for C9. -/
def MetricsInv (m : Metrics) : Prop :=
  0 ≤ m.total_won ∧ 0 ≤ m.total_lost ∧
    m.duplicated_diff_outcome ≤ m.duplicated_bets_count

theorem stepMetrics_inv (st : LedgerState) (m : Metrics) (slug : String)
    (h : MetricsInv m) : MetricsInv (stepMetrics st m slug) := by
  obtain ⟨h1, h2, h3⟩ := h
  rw [stepMetrics_eq]
  refine ⟨?_, ?_, ?_⟩ <;> dsimp only <;> split_ifs <;>
    first
    | linarith
    | omega
    | (have habs := abs_nonneg (st.market_cashflow slug); linarith)

theorem foldl_metrics_inv (st : LedgerState) (slugs : List String) (m : Metrics)
    (h : MetricsInv m) : MetricsInv (slugs.foldl (stepMetrics st) m) := by
  induction slugs generalizing m with
  | nil => exact h
  | cons s t ih => exact ih _ (stepMetrics_inv st m s h)

theorem stepMetrics_wl (st : LedgerState) (m : Metrics) (slug : String) :
    (stepMetrics st m slug).wins + (stepMetrics st m slug).losses ≤ m.wins + m.losses + 1 := by
  rw [stepMetrics_eq]
  dsimp only
  split_ifs with h1 h2 <;> first | omega | (exfalso; linarith)

theorem foldl_metrics_wl (st : LedgerState) (slugs : List String) (m : Metrics) :
    (slugs.foldl (stepMetrics st) m).wins + (slugs.foldl (stepMetrics st) m).losses ≤
      m.wins + m.losses + slugs.length := by
  induction slugs generalizing m with
  | nil => simp
  | cons s t ih =>
    have h1 := ih (stepMetrics st m s)
    have h2 := stepMetrics_wl st m s
    simp only [List.foldl_cons, List.length_cons]
    omega

theorem foldlM_activity_cashflow (k : String) :
    ∀ (l : List ActivityItem) (st st' : LedgerState),
      List.foldlM applyActivity st l = some st' →
      st'.market_cashflow k = st.market_cashflow k + (l.map (activityDelta k)).sum :=
  foldlM_cashflow (fun _ _ _ h => applyActivity_cashflow k h)

theorem foldlM_position_cashflow (k : String) :
    ∀ (l : List PositionItem) (st st' : LedgerState),
      List.foldlM applyPosition st l = some st' →
      st'.market_cashflow k = st.market_cashflow k + (l.map (positionDelta k)).sum :=
  foldlM_cashflow (fun _ _ _ h => applyPosition_cashflow k h)

theorem foldlM_activity_isSome (l : List ActivityItem) (st : LedgerState) :
    (List.foldlM applyActivity st l).isSome = l.all activityOK :=
  foldlM_isSome applyActivity_isSome l st

theorem foldlM_position_isSome (l : List PositionItem) (st : LedgerState) :
    (List.foldlM applyPosition st l).isSome = l.all positionOK :=
  foldlM_isSome applyPosition_isSome l st

theorem foldlM_activity_slugs :
    ∀ (l : List ActivityItem) (st st' : LedgerState),
      List.foldlM applyActivity st l = some st' →
      st'.market_slugs = l.foldl slugStep st.market_slugs := by
  intro l
  induction l with
  | nil => intro st st' h; rw [List.foldlM_nil] at h; cases h; rfl
  | cons b t ih =>
    intro st st' h
    rw [List.foldlM_cons] at h
    cases hb : applyActivity st b with
    | none => rw [hb] at h; simp at h
    | some st1 =>
      rw [hb] at h
      simp only [Option.bind_eq_bind, Option.some_bind] at h
      rw [ih st1 st' h, List.foldl_cons, applyActivity_slugs hb]

theorem foldlM_position_preserves :
    ∀ (l : List PositionItem) (st st' : LedgerState),
      List.foldlM applyPosition st l = some st' →
      st'.market_slugs = st.market_slugs ∧ st'.market_buys = st.market_buys ∧
        st'.market_outcomes = st.market_outcomes := by
  intro l
  induction l with
  | nil => intro st st' h; rw [List.foldlM_nil] at h; cases h; exact ⟨rfl, rfl, rfl⟩
  | cons b t ih =>
    intro st st' h
    rw [List.foldlM_cons] at h
    cases hb : applyPosition st b with
    | none => rw [hb] at h; simp at h
    | some st1 =>
      rw [hb] at h
      simp only [Option.bind_eq_bind, Option.some_bind] at h
      obtain ⟨e1, e2, e3⟩ := ih st1 st' h
      obtain ⟨f1, f2, f3⟩ := applyPosition_preserves hb
      exact ⟨e1.trans f1, e2.trans f2, e3.trans f3⟩

/-- A one-market ledger whose only market `"m"` has the given net cash
flow, used for the classification boundary checks. -/
def exLedger (q : ℚ) : LedgerState where
  market_cashflow := update (fun _ => 0) "m" q
  market_outcomes := fun _ => []
  market_buys := fun _ => 0
  market_slugs := ["m"]

/-- C1: with epsilon = 0.01, one metrics-loop iteration counts a market as
a win and adds its net cash flow `c` to the total-won accumulator iff
`c > 0.01`, counts it as a loss and adds `|c|` to the total-lost
accumulator iff `c < -0.01`, and otherwise leaves all four accumulators
unchanged; in particular `c = 0.01` classifies as NEUTRAL (not WON) and
`c = 0.011` classifies as WON. -/
theorem C1_outcome_classifier :
    (∀ (st : LedgerState) (m : Metrics) (slug : String),
      ((stepMetrics st m slug).wins = m.wins + 1 ↔ st.market_cashflow slug > 1/100) ∧
      ((stepMetrics st m slug).losses = m.losses + 1 ↔ st.market_cashflow slug < -(1/100)) ∧
      (stepMetrics st m slug).total_won =
        (if st.market_cashflow slug > 1/100 then m.total_won + st.market_cashflow slug
         else m.total_won) ∧
      (stepMetrics st m slug).total_lost =
        (if st.market_cashflow slug < -(1/100) then m.total_lost + |st.market_cashflow slug|
         else m.total_lost) ∧
      (stepMetrics st m slug).wins =
        (if st.market_cashflow slug > 1/100 then m.wins + 1 else m.wins) ∧
      (stepMetrics st m slug).losses =
        (if st.market_cashflow slug < -(1/100) then m.losses + 1 else m.losses)) ∧
    (stepMetrics (exLedger (1/100)) initMetrics "m").wins = 0 ∧
    (stepMetrics (exLedger (1/100)) initMetrics "m").losses = 0 ∧
    (stepMetrics (exLedger (1/100)) initMetrics "m").total_won = 0 ∧
    (stepMetrics (exLedger (11/1000)) initMetrics "m").wins = 1 ∧
    (stepMetrics (exLedger (11/1000)) initMetrics "m").total_won = 11/1000 := by
  constructor
  · intro st m slug
    rw [stepMetrics_eq]
    refine ⟨?_, ?_, ?_, ?_, ?_, ?_⟩ <;> dsimp only <;> split_ifs with h <;>
      simp [h] <;> linarith
  · refine ⟨?_, ?_, ?_, ?_, ?_⟩ <;> rw [stepMetrics_eq] <;>
      norm_num [exLedger, update, initMetrics]

/-- A well-formed BUY trade activity record. -/
def buyItem (s o : String) (q : ℚ) : ActivityItem :=
  ⟨some s, some "TRADE", some "BUY", some (.jnum q), some o⟩

/-- A well-formed SELL trade activity record. -/
def sellItem (s : String) (q : ℚ) : ActivityItem :=
  ⟨some s, some "TRADE", some "SELL", some (.jnum q), none⟩

/-- A well-formed REDEEM activity record. -/
def redeemItem (s : String) (q : ℚ) : ActivityItem :=
  ⟨some s, some "REDEEM", none, some (.jnum q), none⟩

/-- An activity record whose `usdcSize` is a non-numeric string. -/
def badItem (s : String) : ActivityItem :=
  ⟨some s, some "TRADE", some "SELL", some (.jstrBad "oops"), none⟩

/-- A well-formed position record. -/
def posItem (s : String) (q : ℚ) : PositionItem :=
  ⟨some s, none, some (.jnum q)⟩

/-- A user who bought the same outcome of one market twice. -/
def sameOutcomeUser : UserRecords :=
  ⟨[buyItem "m" "Yes" 5, buyItem "m" "Yes" 3], []⟩

/-- A user who bought both outcomes of one market and redeemed. -/
def hedgedUser : UserRecords :=
  ⟨[buyItem "m" "Yes" 10, buyItem "m" "No" 5, redeemItem "m" 12], []⟩

/-- C2: a market is counted as duplicate iff its BUY (ENTRY) count exceeds
1; it is additionally counted as hedged — with its full outcome-label set
recorded in the notes — iff it is duplicate and has more than one observed
outcome label; a market with at most one ENTRY is never flagged, and
non-BUY records (SELL/REDEEM/MERGE activity, positions) never change entry
counts or outcome sets; two ENTRYs on the same label give duplicate but
not hedged. -/
theorem C2_duplicate_hedge_detector :
    (∀ (st : LedgerState) (m : Metrics) (slug : String),
      ((stepMetrics st m slug).duplicated_bets_count = m.duplicated_bets_count + 1 ↔
        st.market_buys slug > 1) ∧
      ((stepMetrics st m slug).duplicated_diff_outcome = m.duplicated_diff_outcome + 1 ↔
        st.market_buys slug > 1 ∧ (st.market_outcomes slug).length > 1) ∧
      (stepMetrics st m slug).duplicated_details =
        (if st.market_buys slug > 1 ∧ (st.market_outcomes slug).length > 1 then
          m.duplicated_details ++ [formatDetail slug (st.market_outcomes slug)]
         else m.duplicated_details)) ∧
    (∀ (st : LedgerState) (m : Metrics) (slug : String), st.market_buys slug ≤ 1 →
      (stepMetrics st m slug).duplicated_bets_count = m.duplicated_bets_count ∧
      (stepMetrics st m slug).duplicated_diff_outcome = m.duplicated_diff_outcome ∧
      (stepMetrics st m slug).duplicated_details = m.duplicated_details) ∧
    (∀ (st st' : LedgerState) (it : ActivityItem), applyActivity st it = some st' →
      ¬(it.type_ = some "TRADE" ∧ it.side = some "BUY") →
      st'.market_buys = st.market_buys ∧ st'.market_outcomes = st.market_outcomes) ∧
    (∀ (st st' : LedgerState) (p : PositionItem), applyPosition st p = some st' →
      st'.market_buys = st.market_buys ∧ st'.market_outcomes = st.market_outcomes) ∧
    (analyzeLedger sameOutcomeUser).map (fun st =>
      (st.market_buys "m", (calcMetrics st).duplicated_bets_count,
        (calcMetrics st).duplicated_diff_outcome)) = some (2, 1, 0) ∧
    (analyzeLedger hedgedUser).map (fun st =>
      (st.market_outcomes "m", (calcMetrics st).duplicated_bets_count,
        (calcMetrics st).duplicated_diff_outcome, (calcMetrics st).duplicated_details)) =
      some (["Yes", "No"], 1, 1, [formatDetail "m" ["Yes", "No"]]) := by
  refine ⟨?_, ?_, ?_, ?_, ?_, ?_⟩
  · intro st m slug
    rw [stepMetrics_eq]
    refine ⟨?_, ?_, ?_⟩ <;> dsimp only <;> split_ifs with h <;> simp [h]
  · intro st m slug h
    rw [stepMetrics_eq]
    have hn : ¬ st.market_buys slug > 1 := by omega
    simp [hn]
  · intro st st' it h hnb
    exact applyActivity_not_buy h hnb
  · intro st st' p h
    exact ⟨(applyPosition_preserves h).2.1, (applyPosition_preserves h).2.2⟩
  · simp [analyzeLedger, sameOutcomeUser, buyItem, calcMetrics, stepMetrics, List.foldlM,
      applyActivity, floatField, pyFloat, truthyStr, update, addOnce, initState, initMetrics,
      formatDetail]
    norm_num
  · simp [analyzeLedger, hedgedUser, buyItem, redeemItem, calcMetrics, stepMetrics,
      List.foldlM, applyActivity, floatField, pyFloat, truthyStr, update, addOnce, initState,
      initMetrics, formatDetail]
    norm_num

/-- Concrete instantiation of the hypothesis-bearing parts of C2: a market
with zero entries is not flagged. -/
theorem C2_duplicate_hedge_detector_witness :
    (exLedger 0).market_buys "m" ≤ 1 ∧
      (stepMetrics (exLedger 0) initMetrics "m").duplicated_bets_count = 0 :=
  ⟨by simp [exLedger],
    (C2_duplicate_hedge_detector.2.1 (exLedger 0) initMetrics "m" (by simp [exLedger])).1⟩

/-- C3: per-record normalizer/ledger effects — a BUY trade subtracts
`usdcSize` from the market's cash flow, increments its entry count and
adds its (truthy) outcome label; SELL/REDEEM/MERGE add `usdcSize` to the
cash flow only; a position record adds `currentValue` to the cash flow
only; records with a missing market key are dropped; and no non-BUY or
position record ever changes entry counts or outcome sets. -/
theorem C3_record_normalizer :
    (∀ (st : LedgerState) (it : ActivityItem) (s : String) (q : ℚ),
      it.slug = some s → s ≠ "" → it.type_ = some "TRADE" → it.side = some "BUY" →
      floatField it.usdcSize = some q →
      applyActivity st it = some
        { market_cashflow := update st.market_cashflow s (st.market_cashflow s - q)
          market_outcomes :=
            if truthyStr it.outcome then
              update st.market_outcomes s (addOnce (st.market_outcomes s) (it.outcome.getD ""))
            else st.market_outcomes
          market_buys := update st.market_buys s (st.market_buys s + 1)
          market_slugs := addOnce st.market_slugs s }) ∧
    (∀ (st : LedgerState) (it : ActivityItem) (s : String) (q : ℚ),
      it.slug = some s → s ≠ "" →
      ((it.type_ = some "TRADE" ∧ it.side = some "SELL") ∨ it.type_ = some "REDEEM" ∨
        it.type_ = some "MERGE") →
      floatField it.usdcSize = some q →
      applyActivity st it = some
        { market_cashflow := update st.market_cashflow s (st.market_cashflow s + q)
          market_outcomes := st.market_outcomes
          market_buys := st.market_buys
          market_slugs := addOnce st.market_slugs s }) ∧
    (∀ (st : LedgerState) (p : PositionItem) (s : String) (q : ℚ),
      (if truthyStr p.slug then p.slug else p.eventSlug) = some s → s ≠ "" →
      floatField p.currentValue = some q →
      applyPosition st p = some
        { market_cashflow := update st.market_cashflow s (st.market_cashflow s + q)
          market_outcomes := st.market_outcomes
          market_buys := st.market_buys
          market_slugs := st.market_slugs }) ∧
    (∀ (st : LedgerState) (it : ActivityItem),
      it.slug = none ∨ it.slug = some "" → applyActivity st it = some st) ∧
    (∀ (st : LedgerState) (p : PositionItem),
      (if truthyStr p.slug then p.slug else p.eventSlug) = none ∨
        (if truthyStr p.slug then p.slug else p.eventSlug) = some "" →
      applyPosition st p = some st) ∧
    (∀ (st st' : LedgerState) (it : ActivityItem), applyActivity st it = some st' →
      ¬(it.type_ = some "TRADE" ∧ it.side = some "BUY") →
      st'.market_buys = st.market_buys ∧ st'.market_outcomes = st.market_outcomes) ∧
    (∀ (st st' : LedgerState) (p : PositionItem), applyPosition st p = some st' →
      st'.market_buys = st.market_buys ∧ st'.market_outcomes = st.market_outcomes) := by
  refine ⟨?_, ?_, ?_, ?_, ?_, ?_, ?_⟩
  · intro st it s q hs hne ht hsd hq
    exact applyActivity_buy_eq hs hne ht hsd hq
  · intro st it s q hs hne hk hq
    rcases hk with ⟨ht, hsd⟩ | hk
    · exact applyActivity_sell_eq hs hne ht hsd hq
    · exact applyActivity_settle_eq hs hne hk hq
  · intro st p s q hs hne hq
    exact applyPosition_eq hs hne hq
  · intro st it hs
    exact applyActivity_dropped hs
  · intro st p hs
    exact applyPosition_dropped hs
  · intro st st' it h hnb
    exact applyActivity_not_buy h hnb
  · intro st st' p h
    exact ⟨(applyPosition_preserves h).2.1, (applyPosition_preserves h).2.2⟩

/-- Concrete instantiation of C3 at a BUY record applied to the empty
ledger. -/
theorem C3_record_normalizer_witness :
    applyActivity initState (buyItem "m" "Yes" 5) = some
      { market_cashflow :=
          update initState.market_cashflow "m" (initState.market_cashflow "m" - 5)
        market_outcomes :=
          update initState.market_outcomes "m"
            (addOnce (initState.market_outcomes "m") "Yes")
        market_buys := update initState.market_buys "m" (initState.market_buys "m" + 1)
        market_slugs := addOnce initState.market_slugs "m" } :=
  C3_record_normalizer.1 initState (buyItem "m" "Yes" 5) "m" 5 rfl (by decide) rfl rfl rfl

/-- A user whose only record is a position on a market never seen in
activity records. -/
def positionOnlyUser : UserRecords := ⟨[], [posItem "m" 25]⟩

/-- C4 counterexample: the user `positionOnlyUser` touches market `"m"`
only through a position record with `currentValue = 25`; its ledger cash
flow is 25 (well above 0.01) yet the market is absent from `market_slugs`,
so the summary reports 0 wins and 0 total won — not the 1 win / 25 total
the claim requires. -/
theorem C4_position_only_counterexample :
    (analyzeLedger positionOnlyUser).map
      (fun st => (st.market_cashflow "m", st.market_slugs)) = some (25, []) ∧
    (analyze_user "w" (Cell.str "n") (Cell.str "u") positionOnlyUser).map
      (fun s => (s.wins, s.total_won)) = some (0, 0) := by
  constructor
  · simp [analyzeLedger, positionOnlyUser, posItem, List.foldlM, applyActivity, applyPosition,
      floatField, pyFloat, truthyStr, update, addOnce, initState]
  · simp [analyze_user, analyzeLedger, positionOnlyUser, posItem, List.foldlM, applyActivity,
      applyPosition, floatField, pyFloat, truthyStr, update, addOnce, initState, calcMetrics,
      initMetrics, roundTo2]

/-- C4 (amended): classification and duplicate detection run exactly over
the market keys registered by activity records: position records change
cash flow but never `market_slugs`, so a market appearing only in position
records is never classified and contributes nothing to wins or totals. -/
theorem C4_classification_scope :
    (∀ (u : UserRecords) (st' : LedgerState), analyzeLedger u = some st' →
      st'.market_slugs = activitySlugs u.activities) ∧
    (∀ (st st' : LedgerState) (p : PositionItem), applyPosition st p = some st' →
      st'.market_slugs = st.market_slugs) ∧
    (analyze_user "w" (Cell.str "n") (Cell.str "u") positionOnlyUser).map
      (fun s => (s.wins, s.losses, s.total_won, s.total_lost, s.duplicated_bets)) =
      some (0, 0, 0, 0, 0) := by
  refine ⟨?_, ?_, ?_⟩
  · intro u st' h
    revert h
    unfold analyzeLedger
    cases ha : List.foldlM applyActivity initState u.activities with
    | none => intro h; simp at h
    | some stA =>
      simp only [Option.bind_eq_bind, Option.some_bind]
      intro h
      rw [(foldlM_position_preserves u.positions stA st' h).1,
        foldlM_activity_slugs u.activities initState stA ha]
      rfl
  · intro st st' p h
    exact (applyPosition_preserves h).1
  · simp [analyze_user, analyzeLedger, positionOnlyUser, posItem, List.foldlM, applyActivity,
      applyPosition, floatField, pyFloat, truthyStr, update, addOnce, initState, calcMetrics,
      initMetrics, roundTo2]

/-- Explicit successor state of the single position record of
`positionOnlyUser` applied to the empty ledger. -/
def posOnlyState : LedgerState where
  market_cashflow := update initState.market_cashflow "m" (initState.market_cashflow "m" + 25)
  market_outcomes := initState.market_outcomes
  market_buys := initState.market_buys
  market_slugs := initState.market_slugs

/-- Concrete instantiation of C4 (amended): a position record leaves
`market_slugs` untouched. -/
theorem C4_classification_scope_witness :
    applyPosition initState (posItem "m" 25) = some posOnlyState ∧
      posOnlyState.market_slugs = initState.market_slugs :=
  ⟨applyPosition_eq rfl (by decide) rfl,
    C4_classification_scope.2.1 initState posOnlyState (posItem "m" 25)
      (applyPosition_eq rfl (by decide) rfl)⟩

/-- A list's `all` is invariant under permutation. -/
theorem perm_all_eq {β : Type} {l1 l2 : List β} (ok : β → Bool) (hp : l1.Perm l2) :
    l1.all ok = l2.all ok := by
  cases h2 : l2.all ok with
  | true =>
    rw [List.all_eq_true] at h2 ⊢
    exact fun x hx => h2 x (hp.mem_iff.mp hx)
  | false =>
    rw [List.all_eq_false] at h2 ⊢
    obtain ⟨x, hx, hnx⟩ := h2
    exact ⟨x, hp.mem_iff.mpr hx, hnx⟩

/-- C5: for any user record set, the resulting net cash flow of a market
equals the exact sum of the signed contributions of all records, and
permuting the activity and position streams neither changes whether the
analysis succeeds nor any market's net cash flow. -/
theorem C5_cashflow_sum_commutative (u1 u2 : UserRecords) (k : String)
    (ha : u1.activities.Perm u2.activities) (hp : u1.positions.Perm u2.positions) :
    (∀ st1 : LedgerState, analyzeLedger u1 = some st1 →
      st1.market_cashflow k = (u1.activities.map (activityDelta k)).sum +
        (u1.positions.map (positionDelta k)).sum) ∧
    (analyzeLedger u1).isSome = (analyzeLedger u2).isSome ∧
    (analyzeLedger u1).map (fun st => st.market_cashflow k) =
      (analyzeLedger u2).map (fun st => st.market_cashflow k) := by
  have hsum1 : ∀ (u : UserRecords) (st1 : LedgerState), analyzeLedger u = some st1 →
      st1.market_cashflow k = (u.activities.map (activityDelta k)).sum +
        (u.positions.map (positionDelta k)).sum := by
    intro u st1 h
    revert h
    unfold analyzeLedger
    cases hact : List.foldlM applyActivity initState u.activities with
    | none => intro h; simp at h
    | some stA =>
      simp only [Option.bind_eq_bind, Option.some_bind]
      intro h
      have e1 := foldlM_activity_cashflow k u.activities initState stA hact
      have e2 := foldlM_position_cashflow k u.positions stA st1 h
      have e0 : initState.market_cashflow k = 0 := rfl
      rw [e2, e1, e0]
      ring
  have hok : ∀ u : UserRecords, (analyzeLedger u).isSome =
      (u.activities.all activityOK && u.positions.all positionOK) := by
    intro u
    unfold analyzeLedger
    cases hact : List.foldlM applyActivity initState u.activities with
    | none =>
      have := foldlM_activity_isSome u.activities initState
      rw [hact] at this
      simp [← this]
    | some stA =>
      have := foldlM_activity_isSome u.activities initState
      rw [hact] at this
      simp only [Option.bind_eq_bind, Option.some_bind]
      rw [foldlM_position_isSome u.positions stA, ← this]
      simp
  have hsome : (analyzeLedger u1).isSome = (analyzeLedger u2).isSome := by
    rw [hok u1, hok u2, perm_all_eq activityOK ha, perm_all_eq positionOK hp]
  refine ⟨hsum1 u1, hsome, ?_⟩
  cases h1 : analyzeLedger u1 with
  | none =>
    cases h2 : analyzeLedger u2 with
    | none => rfl
    | some st2 => rw [h1, h2] at hsome; simp at hsome
  | some st1 =>
    have hs2 : (analyzeLedger u2).isSome = true := by rw [← hsome, h1]; rfl
    rw [Option.isSome_iff_exists] at hs2
    obtain ⟨st2, h2⟩ := hs2
    rw [h2]
    have e : st1.market_cashflow k = st2.market_cashflow k := by
      rw [hsum1 u1 st1 h1, hsum1 u2 st2 h2,
        (ha.map (activityDelta k)).sum_eq, (hp.map (positionDelta k)).sum_eq]
    simp [e]

/-- A user with a BUY then a SELL on one market, and its permutation. -/
def permUser1 : UserRecords := ⟨[buyItem "m" "Yes" 5, sellItem "m" 7], []⟩

/-- The same records as `permUser1` with the activity order swapped. -/
def permUser2 : UserRecords := ⟨[sellItem "m" 7, buyItem "m" "Yes" 5], []⟩

/-- Concrete instantiation of C5: swapping the two activity records leaves
the market's net cash flow unchanged. -/
theorem C5_cashflow_sum_commutative_witness :
    (analyzeLedger permUser1).map (fun st => st.market_cashflow "m") =
      (analyzeLedger permUser2).map (fun st => st.market_cashflow "m") :=
  (C5_cashflow_sum_commutative permUser1 permUser2 "m"
    (List.Perm.swap (sellItem "m" 7) (buyItem "m" "Yes" 5) [])
    (List.Perm.refl [])).2.2

/-- A user whose record stream contains one unparseable record between two
good ones. -/
def abortUser : UserRecords :=
  ⟨[buyItem "m" "Yes" 5, badItem "m2", sellItem "m" 7], []⟩

/-- The leaderboard row of the user with the unparseable record. -/
def abortRow : LeaderRow :=
  ⟨Cell.str "alice", Cell.str "https://polymarket.com/profile/0xabc", abortUser⟩

/-- A leaderboard row whose records all parse. -/
def goodRow : LeaderRow :=
  ⟨Cell.str "bob", Cell.str "https://polymarket.com/profile/0xdef",
    ⟨[buyItem "m" "Yes" 5], []⟩⟩

/-- C6 counterexample: a single activity record with a non-numeric
`usdcSize` (`badItem "m2"`) makes `float()` raise, aborting that user's
whole analysis — `analyze_user` yields no summary and the user's row is
missing from the output — contradicting the claim that the record is
skipped and the user still receives a summary row. -/
theorem C6_unparseable_counterexample :
    analyzeLedger abortUser = none ∧
    analyze_user "0xabc" (Cell.str "alice")
      (Cell.str "https://polymarket.com/profile/0xabc") abortUser = none ∧
    run_model [abortRow] = [] := by
  refine ⟨?_, ?_, ?_⟩
  · simp [analyzeLedger, abortUser, buyItem, badItem, sellItem, List.foldlM, applyActivity,
      floatField, pyFloat, truthyStr, update, addOnce, initState]
  · simp [analyze_user, analyzeLedger, abortUser, buyItem, badItem, sellItem, List.foldlM,
      applyActivity, floatField, pyFloat, truthyStr, update, addOnce, initState]
  · simp [run_model, submitted, abortRow, extract_wallet, truthyStr, analyze_user,
      analyzeLedger, abortUser, buyItem, badItem, sellItem, List.foldlM, applyActivity,
      floatField, pyFloat, truthyStr, update, addOnce, initState]

/-- C6 (amended): an unparseable `usdcSize` aborts the whole analysis of
that user (the user gets no summary row), while records with a falsy
market key are skipped silently; the failure is contained per user — the
output rows for any surrounding users are unchanged. -/
theorem C6_error_containment :
    (∀ (l : List ActivityItem) (st st' : LedgerState),
      List.foldlM applyActivity st l = some st' → ∀ it ∈ l, activityOK it = true) ∧
    (∀ (it : ActivityItem), activityOK it = false →
      ∀ (l1 l2 : List ActivityItem) (st : LedgerState),
        List.foldlM applyActivity st (l1 ++ it :: l2) = none) ∧
    (∀ (st : LedgerState) (it : ActivityItem),
      it.slug = none ∨ it.slug = some "" → applyActivity st it = some st) ∧
    (∀ (rows1 rows2 : List LeaderRow) (r : LeaderRow),
      run_model (rows1 ++ r :: rows2) = run_model rows1 ++ run_model [r] ++ run_model rows2) := by
  refine ⟨?_, ?_, ?_, ?_⟩
  · intro l st st' h it hit
    have hs : (List.foldlM applyActivity st l).isSome = true := by rw [h]; rfl
    rw [foldlM_activity_isSome, List.all_eq_true] at hs
    exact hs it hit
  · intro it hbad l1 l2 st
    have : (List.foldlM applyActivity st (l1 ++ it :: l2)).isSome = false := by
      rw [foldlM_activity_isSome, List.all_eq_false]
      exact ⟨it, by simp, by rw [hbad]; decide⟩
    cases hx : List.foldlM applyActivity st (l1 ++ it :: l2) with
    | none => rfl
    | some st' => rw [hx] at this; simp at this
  · intro st it hs
    exact applyActivity_dropped hs
  · intro rows1 rows2 r
    show (submitted (rows1 ++ r :: rows2)).filterMap _ = _
    have : rows1 ++ r :: rows2 = rows1 ++ [r] ++ rows2 := by simp
    rw [this]
    unfold run_model submitted
    rw [List.filter_append, List.filter_append, List.filterMap_append, List.filterMap_append]

/-- Concrete instantiation of C6 (amended): the bad record of `abortUser`
forces the whole activity fold to fail. -/
theorem C6_error_containment_witness :
    activityOK (badItem "m2") = false ∧
      List.foldlM applyActivity initState
        ([buyItem "m" "Yes" 5] ++ badItem "m2" :: [sellItem "m" 7]) = none :=
  ⟨by decide,
    C6_error_containment.2.1 (badItem "m2") (by decide)
      [buyItem "m" "Yes" 5] [sellItem "m" 7] initState⟩

/-- C7: the fetch loop requests offsets 0, 100, 200, … sequentially,
stops on an empty page or a page shorter than the limit (100), returns
the concatenation of the fetched pages in order, and on pages of sizes
[100, 100, 40] issues exactly 3 requests for 240 records. -/
theorem C7_pagination {α : Type} (api : ℕ → List α) :
    (∀ (n off : ℕ), (api off).length = 0 → fetch_pages api (n + 1) off = ([], 1)) ∧
    (∀ (n off : ℕ), (api off).length ≠ 0 → (api off).length < 100 →
      fetch_pages api (n + 1) off = (api off, 1)) ∧
    (∀ (n off : ℕ), ¬ (api off).length < 100 →
      fetch_pages api (n + 1) off =
        (api off ++ (fetch_pages api n (off + 100)).1,
          (fetch_pages api n (off + 100)).2 + 1)) ∧
    (∀ n : ℕ, (api 0).length = 100 → (api 100).length = 100 → (api 200).length = 40 →
      fetch_pages api (n + 3) 0 = (api 0 ++ (api 100 ++ api 200), 3) ∧
      (fetch_pages api (n + 3) 0).1.length = 240) := by
  have hempty : ∀ (n off : ℕ), (api off).length = 0 → fetch_pages api (n + 1) off = ([], 1) := by
    intro n off h
    simp only [fetch_pages]
    rw [if_pos h]
  have hshort : ∀ (n off : ℕ), (api off).length ≠ 0 → (api off).length < 100 →
      fetch_pages api (n + 1) off = (api off, 1) := by
    intro n off h1 h2
    simp only [fetch_pages]
    rw [if_neg h1, if_pos h2]
  have hfull : ∀ (n off : ℕ), ¬ (api off).length < 100 →
      fetch_pages api (n + 1) off =
        (api off ++ (fetch_pages api n (off + 100)).1,
          (fetch_pages api n (off + 100)).2 + 1) := by
    intro n off h
    have h0 : (api off).length ≠ 0 := by omega
    simp only [fetch_pages]
    rw [if_neg h0, if_neg h]
  refine ⟨hempty, hshort, hfull, ?_⟩
  intro n h0 h100 h200
  have e3 : fetch_pages api (n + 1) 200 = (api 200, 1) :=
    hshort n 200 (by omega) (by omega)
  have e2 : fetch_pages api (n + 1 + 1) 100 = (api 100 ++ api 200, 2) := by
    rw [hfull (n + 1) 100 (by omega), (by norm_num : (100 : ℕ) + 100 = 200), e3]
  have e1 : fetch_pages api (n + 1 + 1 + 1) 0 = (api 0 ++ (api 100 ++ api 200), 3) := by
    rw [hfull (n + 1 + 1) 0 (by omega), (by norm_num : (0 : ℕ) + 100 = 100), e2]
  refine ⟨e1, ?_⟩
  have e1' : fetch_pages api (n + 3) 0 = (api 0 ++ (api 100 ++ api 200), 3) := e1
  rw [e1']
  simp [h0, h100, h200]

/-- An offset-indexed page oracle serving pages of sizes 100, 100, 40. -/
def api3 : ℕ → List Unit := fun off =>
  if off = 0 then List.replicate 100 ()
  else if off = 100 then List.replicate 100 ()
  else if off = 200 then List.replicate 40 ()
  else []

/-- Concrete instantiation of C7 on pages of sizes [100, 100, 40]. -/
theorem C7_pagination_witness :
    fetch_pages api3 3 0 = (api3 0 ++ (api3 100 ++ api3 200), 3) ∧
      (fetch_pages api3 3 0).1.length = 240 :=
  (C7_pagination api3).2.2.2 0 (by simp [api3]) (by simp [api3]) (by simp [api3])

/-- C8: on an HTTP 429 the fetch loop re-requests the same offset (it
neither advances nor aborts), and deleting all 429 responses from the
response stream leaves the final record list unchanged. -/
theorem C8_rate_limit_retry {α : Type} :
    (∀ (rs : List (Resp α)) (off : ℕ),
      fetch_resp (Resp.rate429 :: rs) off =
        ((fetch_resp rs off).1, off :: (fetch_resp rs off).2)) ∧
    (∀ (rs : List (Resp α)) (off : ℕ),
      (fetch_resp (rs.filter fun r => !r.is429) off).1 = (fetch_resp rs off).1) := by
  constructor
  · intro rs off
    rfl
  · intro rs off
    induction rs generalizing off with
    | nil => rfl
    | cons r t ih =>
      cases r with
      | rate429 =>
        simpa [List.filter_cons, Resp.is429, fetch_resp] using ih off
      | httpErr =>
        simp [List.filter_cons, Resp.is429, fetch_resp]
      | ok data =>
        have hf : (Resp.ok data :: t).filter (fun r => !r.is429) =
            Resp.ok data :: t.filter (fun r => !r.is429) := by
          simp [List.filter_cons, Resp.is429]
        rw [hf]
        simp only [fetch_resp]
        split_ifs <;> simp [ih]

/-- `round` of a nonnegative rational is nonnegative, hence so is
`roundTo2`. -/
theorem roundTo2_nonneg {q : ℚ} (h : 0 ≤ q) : 0 ≤ roundTo2 q := by
  unfold roundTo2
  have h2 : (0 : ℤ) ≤ round (q * 100) := by
    rw [round_eq]
    refine Int.le_floor.mpr ?_
    push_cast
    linarith
  apply div_nonneg
  · exact_mod_cast h2
  · norm_num

/-- C9: every produced summary has nonnegative totals, at most as many
hedged markets as duplicated markets, and a nonnegative hedge count; and
no single market iteration can increment both the win and the loss
counter, so wins + losses never exceeds the number of classified
markets. -/
theorem C9_summary_invariants :
    (∀ (w : String) (n pu : Cell) (u : UserRecords) (s : Summary),
      analyze_user w n pu u = some s →
      0 ≤ s.total_won ∧ 0 ≤ s.total_lost ∧
        s.diff_outcome_count ≤ s.duplicated_bets ∧ 0 ≤ s.diff_outcome_count) ∧
    (∀ (st : LedgerState) (m : Metrics) (slug : String),
      ((stepMetrics st m slug).wins = m.wins + 1 → (stepMetrics st m slug).losses = m.losses) ∧
      ((stepMetrics st m slug).losses = m.losses + 1 → (stepMetrics st m slug).wins = m.wins)) ∧
    (∀ st : LedgerState,
      (calcMetrics st).wins + (calcMetrics st).losses ≤ st.market_slugs.length) := by
  refine ⟨?_, ?_, ?_⟩
  · intro w n pu u s h
    unfold analyze_user at h
    cases hL : analyzeLedger u with
    | none => rw [hL] at h; simp at h
    | some st =>
      rw [hL] at h
      simp only [Option.map_some'] at h
      cases h
      have hin := foldl_metrics_inv st st.market_slugs initMetrics
        ⟨le_refl 0, le_refl 0, Nat.le_refl 0⟩
      obtain ⟨i1, i2, i3⟩ := hin
      exact ⟨roundTo2_nonneg i1, roundTo2_nonneg i2, i3, Nat.zero_le _⟩
  · intro st m slug
    rw [stepMetrics_eq]
    dsimp only
    constructor <;> split_ifs with h1 h2 <;> intro hh <;>
      first
      | rfl
      | omega
      | (exfalso; linarith)
  · intro st
    have := foldl_metrics_wl st st.market_slugs initMetrics
    simpa [calcMetrics, initMetrics] using this

/-- The summary row computed for `hedgedUser`. -/
def hedgedSummary : Summary :=
  ⟨Cell.str "n", "w", Cell.str "u", 0, 1, 0, 3, 1, 1, "m: Different outcomes (Yes, No)"⟩

/-- Concrete instantiation of C9 on the summary of `hedgedUser`. -/
theorem C9_summary_invariants_witness :
    0 ≤ hedgedSummary.total_won ∧ 0 ≤ hedgedSummary.total_lost ∧
      hedgedSummary.diff_outcome_count ≤ hedgedSummary.duplicated_bets ∧
      0 ≤ hedgedSummary.diff_outcome_count :=
  C9_summary_invariants.1 "w" (Cell.str "n") (Cell.str "u") hedgedUser hedgedSummary
    (by
      simp [analyze_user, analyzeLedger, hedgedUser, buyItem, redeemItem, List.foldlM,
        applyActivity, floatField, pyFloat, truthyStr, update, addOnce, initState, calcMetrics,
        stepMetrics, initMetrics, formatDetail, roundTo2, hedgedSummary]
      norm_num [round_eq]
      rfl)

/-- A leaderboard row whose `Profile URL` cell is not a string. -/
def nanRow : LeaderRow := ⟨Cell.str "ghost", Cell.nan, ⟨[], []⟩⟩

/-- C10: a non-string `Profile URL` yields a `None` wallet; such a row is
dropped by the `if row['wallet']` submission filter, so it spawns no
worker task and contributes no summary row, while all other rows are
processed as if it were absent. -/
theorem C10_nan_profile_excluded :
    (∀ c : Cell, (∀ s : String, c ≠ Cell.str s) → extract_wallet c = none) ∧
    extract_wallet Cell.nan = none ∧
    (∀ r : LeaderRow, extract_wallet r.profileURL = none →
      ∀ rows1 rows2 : List LeaderRow,
        submitted (rows1 ++ r :: rows2) = submitted rows1 ++ submitted rows2 ∧
        run_model (rows1 ++ r :: rows2) = run_model rows1 ++ run_model rows2) := by
  have hex : ∀ c : Cell, (∀ s : String, c ≠ Cell.str s) → extract_wallet c = none := by
    intro c h
    cases c with
    | str s => exact absurd rfl (h s)
    | nan => rfl
  refine ⟨hex, rfl, ?_⟩
  intro r hr rows1 rows2
  have hsub : submitted (rows1 ++ r :: rows2) = submitted rows1 ++ submitted rows2 := by
    unfold submitted
    simp [List.filter_cons, hr, truthyStr]
  refine ⟨hsub, ?_⟩
  unfold run_model
  rw [hsub, List.filterMap_append]

/-- Concrete instantiation of C10: a NaN-profile row alone produces no
task and no output row. -/
theorem C10_nan_profile_excluded_witness :
    submitted [nanRow] = [] ∧ run_model [nanRow] = [] := by
  have h := C10_nan_profile_excluded.2.2 nanRow rfl [] []
  simpa using h

end MetaBet
